import Mathlib

/-!
Verification of the MaxCLI module manager, SSH target store and Docker
cleanup dispatch, as a shallow embedding of the Python sources
(`maxcli/modules/module_manager.py`, `maxcli/ssh_manager.py`,
`maxcli/commands/docker.py`).

Modelling conventions:
* JSON objects with dynamic keys become association lists
  `List (String × α)`; Python dict lookup/insert/update become `lookupKey`,
  append, and `updateKey` (Python dicts keep insertion order, and updating
  an existing key keeps its position).
* `json.dump(..., sort_keys=True)` sorts object keys during serialization;
  this is modelled by `canonicalize`, which sorts the association lists
  with a stable insertion sort.  `json.dump` without `sort_keys` keeps the
  order as is.
* The on-disk state of a JSON file is a `ModFile` / `TargetsFile`:
  absent, unreadable or malformed (both raise inside the `try` and are
  handled identically), or a parsed value.
* Disk writability is a boolean `w` handed to the save functions
  (`IOError`/`OSError` on write).  The wall clock (`datetime.now`) is a
  string parameter `now`.  The Python-dependency environment consulted by
  `check_and_install_python_dependencies` is an oracle `deps`.
* Every `print` site in the embedded functions emits one `Msg`
  constructor, so user-facing output is part of each result.
-/

set_option linter.unusedVariables false

namespace MaxCLI

/-! ## Association list helpers (Python dict operations) -/

/-- Lookup of the value stored under key `k` (first matching entry). -/
def lookupKey (k : String) : List (String × α) → Option α
  | [] => none
  | p :: rest => if p.1 = k then some p.2 else lookupKey k rest

/-- Membership test for a key, as Python `k in d`. -/
def containsKey (k : String) (l : List (String × α)) : Bool :=
  (lookupKey k l).isSome

/-- Replacement of the value under key `k`, keeping entry positions, as a
Python in-place update `d[k] = v` of an existing key. -/
def updateKey (k : String) (v : α) : List (String × α) → List (String × α)
  | [] => []
  | p :: rest => (if p.1 = k then (p.1, v) else p) :: updateKey k v rest

/-- Insertion step of a stable insertion sort on keys. -/
def insertByKey (p : String × α) : List (String × α) → List (String × α)
  | [] => [p]
  | q :: rest => if p.1 ≤ q.1 then p :: q :: rest else q :: insertByKey p rest

/-- Stable sort of an association list by key, modelling the effect of
`json.dump(..., sort_keys=True)` on one JSON object. -/
def sortByKey : List (String × α) → List (String × α)
  | [] => []
  | p :: rest => insertByKey p (sortByKey rest)

theorem lookupKey_insertByKey (k : String) (p : String × α) (l : List (String × α)) :
    lookupKey k (insertByKey p l) = if p.1 = k then some p.2 else lookupKey k l := by
  induction l with
  | nil => simp [insertByKey, lookupKey]
  | cons q rest ih =>
    by_cases hle : p.1 ≤ q.1
    · simp [insertByKey, hle, lookupKey]
    · have hq : ¬ q.1 = k ∨ ¬ p.1 = k := by
        by_cases h1 : p.1 = k
        · left
          intro h2
          exact hle (le_of_eq (h1.trans h2.symm))
        · right
          exact h1
      simp only [insertByKey, if_neg hle, lookupKey, ih]
      rcases hq with hq | hq
      · simp [hq]
      · simp [hq]

theorem lookupKey_sortByKey (k : String) (l : List (String × α)) :
    lookupKey k (sortByKey l) = lookupKey k l := by
  induction l with
  | nil => rfl
  | cons p rest ih =>
    simp only [sortByKey, lookupKey_insertByKey, lookupKey, ih]

theorem mem_insertByKey (x : String × α) (p : String × α) (l : List (String × α)) :
    x ∈ insertByKey p l ↔ x = p ∨ x ∈ l := by
  induction l with
  | nil => simp [insertByKey]
  | cons q rest ih =>
    by_cases hle : p.1 ≤ q.1
    · simp [insertByKey, hle]
    · simp only [insertByKey, if_neg hle, List.mem_cons, ih]
      tauto

theorem mem_sortByKey (x : String × α) (l : List (String × α)) :
    x ∈ sortByKey l ↔ x ∈ l := by
  induction l with
  | nil => simp [sortByKey]
  | cons p rest ih =>
    simp [sortByKey, mem_insertByKey, ih]

theorem all_sortByKey (p : String × α → Bool) (l : List (String × α)) :
    (sortByKey l).all p = l.all p := by
  rcases h : l.all p with _ | _
  · rw [List.all_eq_false] at h ⊢
    obtain ⟨x, hx, hpx⟩ := h
    exact ⟨x, (mem_sortByKey x l).2 hx, hpx⟩
  · rw [List.all_eq_true] at h ⊢
    intro x hx
    exact h x ((mem_sortByKey x l).1 hx)

theorem lookupKey_updateKey_self (k : String) (v : α) (l : List (String × α)) :
    lookupKey k (updateKey k v l) = (lookupKey k l).map (fun _ => v) := by
  induction l with
  | nil => rfl
  | cons p rest ih =>
    by_cases h : p.1 = k
    · simp [updateKey, lookupKey, h]
    · simp [updateKey, lookupKey, h, ih]

theorem lookupKey_updateKey_ne (j k : String) (v : α) (l : List (String × α))
    (h : j ≠ k) : lookupKey j (updateKey k v l) = lookupKey j l := by
  induction l with
  | nil => rfl
  | cons p rest ih =>
    by_cases hp : p.1 = k
    · have h1 : ¬ p.1 = j := fun hj => h (hj.symm.trans hp)
      have h2 : ¬ k = j := fun hj => h hj.symm
      simp [updateKey, lookupKey, hp, h1, h2, ih]
    · by_cases hj : p.1 = j <;> simp [updateKey, lookupKey, hp, hj, ih, h]

theorem mem_updateKey (x : String × α) (k : String) (v : α) (l : List (String × α))
    (hx : x ∈ updateKey k v l) : (x ∈ l ∧ x.1 ≠ k) ∨ (x.1 = k ∧ x.2 = v) := by
  induction l with
  | nil => simp [updateKey] at hx
  | cons p rest ih =>
    simp only [updateKey, List.mem_cons] at hx
    rcases hx with hx | hx
    · by_cases hp : p.1 = k
      · right
        simp [hp] at hx
        simp [hx, hp]
      · left
        simp [hp] at hx
        simp [hx, hp]
    · rcases ih hx with h | h
      · exact Or.inl ⟨List.mem_cons_of_mem _ h.1, h.2⟩
      · exact Or.inr h

theorem lookupKey_append (k : String) (l₁ l₂ : List (String × α)) :
    lookupKey k (l₁ ++ l₂) =
      match lookupKey k l₁ with
      | some v => some v
      | none => lookupKey k l₂ := by
  induction l₁ with
  | nil => simp [lookupKey]
  | cons p rest ih =>
    by_cases h : p.1 = k <;> simp [lookupKey, h, ih]

theorem lookupKey_eq_none (k : String) (l : List (String × α))
    (h : lookupKey k l = none) : ∀ x ∈ l, x.1 ≠ k := by
  induction l with
  | nil => intro x hx; simp at hx
  | cons p rest ih =>
    intro x hx
    simp only [lookupKey] at h
    by_cases hp : p.1 = k
    · simp [hp] at h
    · rcases List.mem_cons.1 hx with hx | hx
      · rw [hx]; exact hp
      · exact ih (by simpa [hp] using h) x hx

theorem foldl_preserves {γ δ : Type} {P : γ → Prop} (f : γ → δ → γ) (l : List δ)
    (h : ∀ acc x, P acc → P (f acc x)) :
    ∀ init, P init → P (l.foldl f init) := by
  induction l with
  | nil => intro init h0; exact h0
  | cons x rest ih =>
    intro init h0
    exact ih (f init x) (h init x h0)

/-! ## Module manager data model (`maxcli/modules/module_manager.py`) -/

/-- Static metadata of one registered module (one value of the Python
`AVAILABLE_MODULES` dict; the optional `dependencies` key of
`git_manager` is not read by any embedded function and is omitted). -/
structure ModuleData where
  description : String
  commands : List String
deriving DecidableEq, Repr

/-- One entry of the `module_info` object in `modules_config.json`, in the
bootstrap-compatible format the code writes. -/
structure ModuleInfoEntry where
  enabled : Bool
  description : String
  commands : List String
  dependencies : List String
deriving DecidableEq, Repr

/-- Parsed contents of `modules_config.json`.  The two structural keys are
optional (legacy files have no `enabled_modules`, hand-written files may
lack `module_info`); `legacy_flags` holds the remaining top-level entries
whose values are JSON booleans (the legacy per-module flags). -/
structure StoredConfig where
  enabled_modules : Option (List String)
  module_info : Option (List (String × ModuleInfoEntry))
  legacy_flags : List (String × Bool)
  created_at : Option String
  bootstrap_version : Option String
deriving DecidableEq, Repr

/-- On-disk state of `modules_config.json`: missing, unreadable or not
JSON (both `IOError` and `json.JSONDecodeError` take the same handler), or
a parsed configuration. -/
inductive ModFile where
  | absent
  | malformed
  | stored (config : StoredConfig)
deriving DecidableEq, Repr

/-- User-facing output: one constructor per `print` site of the embedded
functions. -/
inductive Msg where
  | convertLegacyFormat
  | cleanedLegacyFlags
  | warnCouldNotLoad
  | creatingDefault
  | errCouldNotSave
  | errModuleNotAvailable (name : String)
  | listAvailable
  | alreadyEnabled (name : String)
  | depsFailed (name : String)
  | enabledOk (name : String)
  | newCommandsAvailable (cmds : List String)
  | restartHintEnable
  | legacyDisabledOk (name : String)
  | legacyHint
  | legacyAlreadyDisabled (name : String)
  | alreadyDisabled (name : String)
  | disabledOk (name : String)
  | commandsNoLonger (cmds : List String)
  | restartHintDisable
  | warnCouldNotLoadTargets
  | errValidation (err : String)
  | errTargetExists (name : String)
  | targetAdded (name : String)
  | errCouldNotSaveTargets
deriving DecidableEq, Repr

/-- The `AVAILABLE_MODULES` registry, in source order. -/
def AVAILABLE_MODULES : List (String × ModuleData) :=
  [("ssh_manager",
    { description := "Complete SSH management: connections, keys, backups, and file transfers with GPG encryption and rsync"
      commands := ["ssh"] }),
   ("docker_manager",
    { description := "Docker container management, image operations, and development environments"
      commands := ["docker"] }),
   ("kubernetes_manager",
    { description := "Kubernetes context switching and cluster management"
      commands := ["kctx", "kubectl", "k8s"] }),
   ("gcp_manager",
    { description := "Google Cloud Platform configuration and authentication management"
      commands := ["gcp", "gcloud"] }),
   ("coolify_manager",
    { description := "Coolify instance management through REST API"
      commands := ["coolify"] }),
   ("setup_manager",
    { description := "Development environment setup and configuration profiles"
      commands := ["setup"] }),
   ("misc_manager",
    { description := "Database backup utilities, CSV data processing, and application deployment tools"
      commands := ["backup-db", "deploy-app", "process-csv"] }),
   ("config_manager",
    { description := "Personal configuration management with init, backup, and restore functionality"
      commands := ["config"] }),
   ("git_manager",
    { description := "Simplified Git operations with safety checks: WIP commits, branch cleanup, safe force push, and sync workflows"
      commands := ["git"] }),
   ("devtools_manager",
    { description := "Developer utilities: JWT decoding, base64 operations, and other common development tools"
      commands := ["decode"] })]

/-- Names of the available modules, as `get_available_modules` returns
them (membership is all that is ever used of the Python set). -/
def availableNames : List String := AVAILABLE_MODULES.map Prod.fst

/-- The `DEFAULT_ENABLED_MODULES` constant. -/
def DEFAULT_ENABLED_MODULES : List String :=
  ["ssh_manager", "setup_manager", "config_manager", "git_manager", "devtools_manager"]

/-- Effect of `json.dump(config, f, indent=2, sort_keys=True)` on the
association lists of the configuration (JSON object keys are serialized in
sorted order; arrays and the fixed structure fields are unaffected). -/
def canonicalize (config : StoredConfig) : StoredConfig :=
  { config with
    module_info := config.module_info.map sortByKey
    legacy_flags := sortByKey config.legacy_flags }

/-- Result of `save_modules_config`. -/
structure SaveResult where
  ok : Bool
  fs : ModFile
  msgs : List Msg
deriving DecidableEq, Repr

/-- Result of `load_modules_config` and `create_default_config`. -/
structure LoadResult where
  config : StoredConfig
  fs : ModFile
  msgs : List Msg
deriving DecidableEq, Repr

/-- Result of `enable_module` and `disable_module`. -/
structure OpResult where
  ok : Bool
  fs : ModFile
  msgs : List Msg
deriving DecidableEq, Repr

/-- The `save_modules_config` function: writes the configuration (with
sorted object keys) and returns `True`, or catches the `IOError`/`OSError`
(disk not writable, `w = false`), prints an error and returns `False`. -/
def save_modules_config (w : Bool) (f : ModFile) (config : StoredConfig) : SaveResult :=
  if w then
    { ok := true, fs := ModFile.stored (canonicalize config), msgs := [] }
  else
    { ok := false, fs := f, msgs := [Msg.errCouldNotSave] }

/-- The `create_config_with_modules` function: bootstrap-compatible
configuration with the given enabled list. -/
def create_config_with_modules (enabled_modules : List String) (now : String) : StoredConfig :=
  { enabled_modules := some enabled_modules
    module_info := some (AVAILABLE_MODULES.map (fun p =>
      (p.1,
       { enabled := decide (p.1 ∈ enabled_modules)
         description := p.2.description
         commands := p.2.commands
         dependencies := [] })))
    legacy_flags := []
    created_at := some now
    bootstrap_version := some "1.0.0" }

/-- The `create_default_config` function: build the default configuration
and save it (the saved file keeps the old contents when the write fails). -/
def create_default_config (w : Bool) (now : String) (f : ModFile) : LoadResult :=
  let config := create_config_with_modules DEFAULT_ENABLED_MODULES now
  let s := save_modules_config w f config
  { config := config, fs := s.fs, msgs := s.msgs }

/-- Body of the `for module_name, module_data in AVAILABLE_MODULES.items()`
loop of `update_module_info_if_needed`, acting on the pair of the current
`module_info` list and the `modified` flag. -/
def updateModuleStep (enabled : List String)
    (acc : List (String × ModuleInfoEntry) × Bool) (p : String × ModuleData) :
    List (String × ModuleInfoEntry) × Bool :=
  match lookupKey p.1 acc.1 with
  | none =>
      (acc.1 ++ [(p.1,
        { enabled := decide (p.1 ∈ enabled)
          description := p.2.description
          commands := p.2.commands
          dependencies := [] })], true)
  | some existing =>
      let shouldBe := decide (p.1 ∈ enabled)
      let s1 : ModuleInfoEntry × Bool :=
        if existing.enabled ≠ shouldBe then ({ existing with enabled := shouldBe }, true)
        else (existing, acc.2)
      let s2 : ModuleInfoEntry × Bool :=
        if s1.1.description ≠ p.2.description then ({ s1.1 with description := p.2.description }, true)
        else s1
      let s3 : ModuleInfoEntry × Bool :=
        if s2.1.commands ≠ p.2.commands then ({ s2.1 with commands := p.2.commands }, true)
        else s2
      (updateKey p.1 s3.1 acc.1, s3.2)

/-- The `update_module_info_if_needed` function: create `module_info` if
missing and add or resynchronize the entry of every available module,
returning the updated configuration and whether anything changed.  (The
entries of the embedding always carry all four fields, so the Python
branch that inserts a missing `dependencies` key never fires.) -/
def update_module_info_if_needed (config : StoredConfig) : StoredConfig × Bool :=
  let modified := config.module_info.isNone
  let mi0 := config.module_info.getD []
  let enabled := config.enabled_modules.getD []
  let r := AVAILABLE_MODULES.foldl (updateModuleStep enabled) (mi0, modified)
  ({ config with module_info := some r.1 }, r.2)

/-- The `load_modules_config` function: missing file or unreadable/invalid
JSON fall back to the default configuration; a legacy file (no
`enabled_modules` key) is converted in memory; legacy boolean flags are
deleted and `module_info` is rebuilt only when completely missing, saving
the file back when either cleanup changed it. -/
def load_modules_config (w : Bool) (now : String) (f : ModFile) : LoadResult :=
  match f with
  | ModFile.absent => create_default_config w now ModFile.absent
  | ModFile.malformed =>
      let r := create_default_config w now ModFile.malformed
      { r with msgs := Msg.warnCouldNotLoad :: Msg.creatingDefault :: r.msgs }
  | ModFile.stored config =>
    match config.enabled_modules with
    | none =>
        let legacy_enabled :=
          (config.legacy_flags.filter (fun q => q.2 && decide (q.1 ∈ availableNames))).map Prod.fst
        { config := create_config_with_modules legacy_enabled now
          fs := ModFile.stored config
          msgs := [Msg.convertLegacyFormat] }
    | some _ =>
        let cleaned :=
          { config with legacy_flags := config.legacy_flags.filter (fun q => !decide (q.1 ∈ availableNames)) }
        let legacyFound := config.legacy_flags.any (fun q => decide (q.1 ∈ availableNames))
        let upd :=
          if cleaned.module_info.isNone then update_module_info_if_needed cleaned
          else (cleaned, false)
        if legacyFound || upd.2 then
          let s := save_modules_config w (ModFile.stored config) upd.1
          { config := upd.1
            fs := s.fs
            msgs := (if legacyFound then [Msg.cleanedLegacyFlags] else []) ++ s.msgs }
        else
          { config := upd.1, fs := ModFile.stored config, msgs := [] }

/-- Modules with Python package dependencies (`python_dependencies` table
inside `check_and_install_python_dependencies`). -/
def pythonDependencyModules : List String := ["git_manager"]

/-- The `check_and_install_python_dependencies` function.  Whether the
packages of a module with Python dependencies are importable or
installable depends on the local environment and pip, modelled by the
oracle `deps`; modules without Python dependencies always succeed. -/
def check_and_install_python_dependencies (deps : String → Bool) (module_name : String) : Bool :=
  if module_name ∈ pythonDependencyModules then deps module_name else true

/-- Commands displayed after a successful enable/disable:
`config.get("module_info", AVAILABLE_MODULES).get(module_name, {}).get("commands", [])`. -/
def displayedCommands (config : StoredConfig) (module_name : String) : List String :=
  match config.module_info with
  | some mi =>
      match lookupKey module_name mi with
      | some e => e.commands
      | none => []
  | none =>
      match lookupKey module_name AVAILABLE_MODULES with
      | some d => d.commands
      | none => []

/-- Shared tail of enable/disable: set the `enabled` field of
`config["module_info"][module_name]` when both the `module_info` key and
the entry exist (`if "module_info" in config and module_name in
config["module_info"]`). -/
def setModuleInfoEnabled (config : StoredConfig) (module_name : String) (b : Bool) : StoredConfig :=
  match config.module_info with
  | some mi =>
      match lookupKey module_name mi with
      | some e => { config with module_info := some (updateKey module_name { e with enabled := b } mi) }
      | none => config
  | none => config

/-- The `enable_module` function. -/
def enable_module (w : Bool) (deps : String → Bool) (now : String) (f : ModFile)
    (module_name : String) : OpResult :=
  if module_name ∈ availableNames then
    let r := load_modules_config w now f
    let enabled := r.config.enabled_modules.getD []
    if module_name ∈ enabled then
      { ok := true, fs := r.fs, msgs := r.msgs ++ [Msg.alreadyEnabled module_name] }
    else if check_and_install_python_dependencies deps module_name then
      let c2 := setModuleInfoEnabled
        { r.config with enabled_modules := some (enabled ++ [module_name]) } module_name true
      let s := save_modules_config w r.fs c2
      if s.ok then
        let cmds := displayedCommands c2 module_name
        { ok := true
          fs := s.fs
          msgs := r.msgs ++ s.msgs ++ [Msg.enabledOk module_name] ++
            (if cmds ≠ [] then [Msg.newCommandsAvailable cmds] else []) ++ [Msg.restartHintEnable] }
      else
        { ok := false, fs := s.fs, msgs := r.msgs ++ s.msgs }
    else
      { ok := false, fs := r.fs, msgs := r.msgs ++ [Msg.depsFailed module_name] }
  else
    { ok := false, fs := f, msgs := [Msg.errModuleNotAvailable module_name, Msg.listAvailable] }

/-- The `disable_module` function, including the special-cased legacy
modules `ssh_backup` and `ssh_rsync` (consolidated into `ssh_manager`),
which are handled before the availability check. -/
def disable_module (w : Bool) (now : String) (f : ModFile) (module_name : String) : OpResult :=
  if module_name = "ssh_backup" ∨ module_name = "ssh_rsync" then
    let r := load_modules_config w now f
    let enabled := r.config.enabled_modules.getD []
    if module_name ∈ enabled then
      let c2 := setModuleInfoEnabled
        { r.config with enabled_modules := some (enabled.erase module_name) } module_name false
      let s := save_modules_config w r.fs c2
      if s.ok then
        { ok := true, fs := s.fs, msgs := r.msgs ++ s.msgs ++ [Msg.legacyDisabledOk module_name, Msg.legacyHint] }
      else
        { ok := false, fs := s.fs, msgs := r.msgs ++ s.msgs }
    else
      { ok := true, fs := r.fs, msgs := r.msgs ++ [Msg.legacyAlreadyDisabled module_name, Msg.legacyHint] }
  else if module_name ∈ availableNames then
    let r := load_modules_config w now f
    let enabled := r.config.enabled_modules.getD []
    if module_name ∈ enabled then
      let c2 := setModuleInfoEnabled
        { r.config with enabled_modules := some (enabled.erase module_name) } module_name false
      let s := save_modules_config w r.fs c2
      if s.ok then
        let cmds := displayedCommands c2 module_name
        { ok := true
          fs := s.fs
          msgs := r.msgs ++ s.msgs ++ [Msg.disabledOk module_name] ++
            (if cmds ≠ [] then [Msg.commandsNoLonger cmds] else []) ++ [Msg.restartHintDisable] }
      else
        { ok := false, fs := s.fs, msgs := r.msgs ++ s.msgs }
    else
      { ok := true, fs := r.fs, msgs := r.msgs ++ [Msg.alreadyDisabled module_name] }
  else
    { ok := false, fs := f, msgs := [Msg.errModuleNotAvailable module_name, Msg.listAvailable] }

/-! ## The enabled-flag mirror invariant -/

/-- Mirror property of one `module_info` list against one enabled list:
the `enabled` field of every entry agrees with membership of its key. -/
def entriesMatch (enabled : List String) (mi : List (String × ModuleInfoEntry)) : Bool :=
  mi.all (fun q => q.2.enabled == decide (q.1 ∈ enabled))

/-- Specified invariant of a configuration: for each module name present
in `module_info`, its `enabled` field holds exactly when the name is a
member of `enabled_modules`. -/
def invariantHolds (config : StoredConfig) : Bool :=
  entriesMatch (config.enabled_modules.getD []) (config.module_info.getD [])

/-- Invariant lifted to an on-disk state: whatever parsed configuration
the file holds satisfies `invariantHolds`. -/
def FileInv (f : ModFile) : Prop :=
  ∀ config, f = ModFile.stored config → invariantHolds config = true

theorem inv_create (ems : List String) (now : String) :
    invariantHolds (create_config_with_modules ems now) = true := by
  simp only [invariantHolds, create_config_with_modules, entriesMatch, Option.getD_some,
    List.all_eq_true]
  intro x hx
  simp only [List.mem_map] at hx
  obtain ⟨p, hp, rfl⟩ := hx
  simp

theorem inv_canonicalize (config : StoredConfig) :
    invariantHolds (canonicalize config) = invariantHolds config := by
  cases hM : config.module_info with
  | none => simp [invariantHolds, canonicalize, hM, entriesMatch]
  | some mi => simp [invariantHolds, canonicalize, hM, entriesMatch, all_sortByKey]

theorem inv_legacy_flags (config : StoredConfig) (flags : List (String × Bool)) :
    invariantHolds { config with legacy_flags := flags } = invariantHolds config := rfl

theorem fileInv_save (w : Bool) (f : ModFile) (config : StoredConfig)
    (hf : FileInv f) (hc : invariantHolds config = true) :
    FileInv (save_modules_config w f config).fs := by
  cases w with
  | false => exact hf
  | true =>
      intro c hc2
      simp only [save_modules_config, if_true] at hc2
      cases hc2
      rw [inv_canonicalize]
      exact hc

theorem entriesMatch_updateModuleStep (enabled : List String)
    (acc : List (String × ModuleInfoEntry) × Bool) (p : String × ModuleData)
    (h : entriesMatch enabled acc.1 = true) :
    entriesMatch enabled (updateModuleStep enabled acc p).1 = true := by
  rw [entriesMatch, List.all_eq_true] at h
  unfold updateModuleStep
  cases hl : lookupKey p.1 acc.1 with
  | none =>
      rw [entriesMatch, List.all_eq_true]
      intro x hx
      rcases List.mem_append.1 hx with hx | hx
      · exact h x hx
      · simp only [List.mem_singleton] at hx
        simp [hx]
  | some existing =>
      have henb : ∀ e : ModuleInfoEntry × Bool,
          e.1.enabled = decide (p.1 ∈ enabled) →
          (if e.1.commands ≠ p.2.commands then
            ({ e.1 with commands := p.2.commands }, true) else e).1.enabled
            = decide (p.1 ∈ enabled) := by
        intro e he
        split <;> simpa using he
      rw [entriesMatch, List.all_eq_true]
      intro x hx
      simp only at hx
      rcases mem_updateKey x p.1 _ _ hx with ⟨hmem, _⟩ | ⟨hk, hv⟩
      · exact h x hmem
      · have h3 : (let shouldBe := decide (p.1 ∈ enabled)
          let s1 : ModuleInfoEntry × Bool :=
            if existing.enabled ≠ shouldBe then ({ existing with enabled := shouldBe }, true)
            else (existing, acc.2)
          let s2 : ModuleInfoEntry × Bool :=
            if s1.1.description ≠ p.2.description then ({ s1.1 with description := p.2.description }, true)
            else s1
          let s3 : ModuleInfoEntry × Bool :=
            if s2.1.commands ≠ p.2.commands then ({ s2.1 with commands := p.2.commands }, true)
            else s2
          s3.1.enabled) = decide (p.1 ∈ enabled) := by
          apply henb
          split <;> rename_i h1
          · split <;> rename_i h2
            · simp
            · simp
          · split <;> rename_i h2
            · simpa using Decidable.not_not.1 h1
            · simpa using Decidable.not_not.1 h1
        simp only [hv, hk, h3]
        simp

theorem inv_update (config : StoredConfig) (h : invariantHolds config = true) :
    invariantHolds (update_module_info_if_needed config).1 = true := by
  unfold update_module_info_if_needed
  have hstart : entriesMatch (config.enabled_modules.getD [])
      (config.module_info.getD []) = true := h
  have := foldl_preserves (P := fun acc : List (String × ModuleInfoEntry) × Bool =>
      entriesMatch (config.enabled_modules.getD []) acc.1 = true)
    (updateModuleStep (config.enabled_modules.getD [])) AVAILABLE_MODULES
    (fun acc x hacc => entriesMatch_updateModuleStep _ acc x hacc)
    (config.module_info.getD [], config.module_info.isNone) hstart
  simpa [invariantHolds] using this

theorem inv_load (w : Bool) (now : String) (f : ModFile) (hf : FileInv f) :
    invariantHolds (load_modules_config w now f).config = true ∧
      FileInv (load_modules_config w now f).fs := by
  cases f with
  | absent =>
      refine ⟨inv_create DEFAULT_ENABLED_MODULES now, ?_⟩
      exact fileInv_save w ModFile.absent _ (fun c h => by cases h)
        (inv_create DEFAULT_ENABLED_MODULES now)
  | malformed =>
      refine ⟨inv_create DEFAULT_ENABLED_MODULES now, ?_⟩
      exact fileInv_save w ModFile.malformed _ (fun c h => by cases h)
        (inv_create DEFAULT_ENABLED_MODULES now)
  | stored config =>
      have hc : invariantHolds config = true := hf config rfl
      have hstored : FileInv (ModFile.stored config) := hf
      obtain ⟨oem, omi, lf, ca, bv⟩ := config
      cases oem with
      | none =>
          refine ⟨inv_create _ now, ?_⟩
          simp only [load_modules_config]
          exact hstored
      | some ems =>
          have hc2 : invariantHolds
              (⟨some ems, omi,
                List.filter (fun q => !decide (q.1 ∈ availableNames)) lf, ca, bv⟩ : StoredConfig)
              = true := hc
          simp only [load_modules_config]
          constructor
          · split
            · split
              · exact inv_update _ hc2
              · exact inv_update _ hc2
            · split
              · exact hc2
              · exact hc2
          · split
            · split
              · exact fileInv_save w _ _ hstored (inv_update _ hc2)
              · exact hstored
            · split
              · exact fileInv_save w _ _ hstored hc2
              · exact hstored

theorem inv_toggle (oem : Option (List String)) (omi : Option (List (String × ModuleInfoEntry)))
    (lf : List (String × Bool)) (ca bv : Option String)
    (name : String) (ems2 : List String) (b : Bool)
    (hinv : invariantHolds ⟨oem, omi, lf, ca, bv⟩ = true)
    (hOther : ∀ k, k ≠ name → ((k ∈ ems2) ↔ (k ∈ oem.getD [])))
    (hSelf : decide (name ∈ ems2) = b) :
    invariantHolds (setModuleInfoEnabled ⟨some ems2, omi, lf, ca, bv⟩ name b) = true := by
  cases omi with
  | none => rfl
  | some mi =>
      rw [invariantHolds, entriesMatch] at hinv
      simp only [Option.getD_some, List.all_eq_true, beq_iff_eq] at hinv
      cases hL : lookupKey name mi with
      | none =>
          have hne := lookupKey_eq_none name mi hL
          simp only [setModuleInfoEnabled, hL, invariantHolds, entriesMatch,
            Option.getD_some, List.all_eq_true, beq_iff_eq]
          intro x hx
          rw [hinv x hx]
          exact decide_eq_decide.2 (hOther x.1 (hne x hx)).symm
      | some e =>
          simp only [setModuleInfoEnabled, hL, invariantHolds, entriesMatch,
            Option.getD_some, List.all_eq_true, beq_iff_eq]
          intro x hx
          rcases mem_updateKey x name _ mi hx with ⟨hmem, hne⟩ | ⟨hk, hv⟩
          · rw [hinv x hmem]
            exact decide_eq_decide.2 (hOther x.1 hne).symm
          · rw [hv, hk, hSelf]

theorem fileInv_enable (w : Bool) (deps : String → Bool) (now : String) (f : ModFile)
    (name : String) (hf : FileInv f) :
    FileInv (enable_module w deps now f name).fs := by
  obtain ⟨hinv, hfs⟩ := inv_load w now f hf
  simp only [enable_module]
  split
  · split
    · exact hfs
    · split
      · have hc2 : invariantHolds (setModuleInfoEnabled
            { (load_modules_config w now f).config with
              enabled_modules := some ((load_modules_config w now f).config.enabled_modules.getD []
                ++ [name]) } name true) = true := by
          apply inv_toggle _ _ _ _ _ name _ true hinv
          · intro k hk
            simp [List.mem_append, hk]
          · simp
        split
        · exact fileInv_save w _ _ hfs hc2
        · exact fileInv_save w _ _ hfs hc2
      · exact hfs
  · exact hf

theorem notMem_erase_of_count_le_one (name : String) (l : List String)
    (hcount : List.count name l ≤ 1) : name ∉ l.erase name := by
  intro hmem
  have h1 : 0 < List.count name (l.erase name) := List.count_pos_iff.2 hmem
  rw [List.count_erase_self] at h1
  omega

theorem fileInv_disable (w : Bool) (now : String) (f : ModFile) (name : String)
    (hf : FileInv f)
    (hcount : List.count name ((load_modules_config w now f).config.enabled_modules.getD []) ≤ 1) :
    FileInv (disable_module w now f name).fs := by
  obtain ⟨hinv, hfs⟩ := inv_load w now f hf
  have hc2 : ∀ hmem : name ∈ (load_modules_config w now f).config.enabled_modules.getD [],
      invariantHolds (setModuleInfoEnabled
        { (load_modules_config w now f).config with
          enabled_modules := some (((load_modules_config w now f).config.enabled_modules.getD
            []).erase name) } name false) = true := by
    intro hmem
    apply inv_toggle _ _ _ _ _ name _ false hinv
    · intro k hk
      exact List.mem_erase_of_ne hk
    · simpa using notMem_erase_of_count_le_one name _ hcount
  simp only [disable_module]
  split
  · split
    case isTrue hmem =>
      split
      · exact fileInv_save w _ _ hfs (hc2 hmem)
      · exact fileInv_save w _ _ hfs (hc2 hmem)
    case isFalse hmem => exact hfs
  · split
    · split
      case isTrue hmem =>
        split
        · exact fileInv_save w _ _ hfs (hc2 hmem)
        · exact fileInv_save w _ _ hfs (hc2 hmem)
      case isFalse hmem => exact hfs
    · exact hf

/-! ## SSH target store (`maxcli/ssh_manager.py`) -/

/-- One SSH connection profile as `add_target` stores it. -/
structure SSHTarget where
  user : String
  host : String
  port : Int
  key : String
deriving DecidableEq, Repr

/-- On-disk state of `ssh_targets.json`: missing, unreadable (`IOError`),
invalid JSON (`json.JSONDecodeError`), or a parsed map of targets. -/
inductive TargetsFile where
  | absent
  | unreadable
  | invalidJson
  | stored (targets : List (String × SSHTarget))
deriving DecidableEq, Repr

/-- The `load_ssh_targets` function: empty dict when the file is missing;
warning and empty dict when reading or parsing fails. -/
def load_ssh_targets : TargetsFile → List (String × SSHTarget) × List Msg
  | TargetsFile.absent => ([], [])
  | TargetsFile.unreadable => ([], [Msg.warnCouldNotLoadTargets])
  | TargetsFile.invalidJson => ([], [Msg.warnCouldNotLoadTargets])
  | TargetsFile.stored targets => (targets, [])

/-- The `save_ssh_targets` function (`json.dump` without `sort_keys`, so
insertion order is kept); an `IOError`/`OSError` prints an error and
returns `False` leaving the file as it was. -/
def save_ssh_targets (w : Bool) (f : TargetsFile) (targets : List (String × SSHTarget)) :
    Bool × TargetsFile × List Msg :=
  if w then (true, TargetsFile.stored targets, [])
  else (false, f, [Msg.errCouldNotSaveTargets])

/-- What a filesystem path refers to, as seen by `Path.exists` and
`Path.is_file`. -/
inductive PathKind where
  | missing
  | regular
  | directory
deriving DecidableEq, Repr

/-- Python `str.strip()` with no argument: remove leading and trailing
whitespace. -/
def pyStrip (s : String) : String :=
  String.mk (((s.data.dropWhile Char.isWhitespace).reverse.dropWhile
    Char.isWhitespace).reverse)

/-- The `validate_ssh_target` function.  The Python function returns a
pair `(is_valid, error_message)` with `is_valid` true exactly when the
message is `None`; the embedding returns the optional error message.
`expand` models `Path(key).expanduser()` and `kind` models what the
expanded path refers to on disk. -/
def validate_ssh_target (expand : String → String) (kind : String → PathKind)
    (user host : String) (port : Int) (key : String) : Option String :=
  if pyStrip user = "" then some "Username cannot be empty"
  else if pyStrip host = "" then some "Host cannot be empty"
  else if ¬ (1 ≤ port ∧ port ≤ 65535) then some "Port must be between 1 and 65535"
  else
    if kind (expand key) = PathKind.missing then some "Private key file does not exist"
    else if kind (expand key) ≠ PathKind.regular then some "Private key path is not a file"
    else none

/-- The `add_target` function: validate, reject duplicate names, then
store the stripped profile under `name` and save. -/
def add_target (expand : String → String) (kind : String → PathKind) (w : Bool)
    (f : TargetsFile) (name user host : String) (port : Int) (key : String) :
    Bool × TargetsFile × List Msg :=
  match validate_ssh_target expand kind user host port key with
  | some e => (false, f, [Msg.errValidation e])
  | none =>
    let loaded := load_ssh_targets f
    if containsKey name loaded.1 then
      (false, f, loaded.2 ++ [Msg.errTargetExists name])
    else
      let targets2 := loaded.1 ++
        [(name, { user := pyStrip user, host := pyStrip host, port := port, key := expand key })]
      let s := save_ssh_targets w f targets2
      if s.1 then (true, s.2.1, loaded.2 ++ s.2.2 ++ [Msg.targetAdded name])
      else (false, s.2.1, loaded.2 ++ s.2.2)

/-! ## Docker cleanup commands (`maxcli/commands/docker.py`) -/

/-- Flags of the parsed `docker clean` arguments. -/
structure DockerArgs where
  extensive : Bool
  minimal : Bool
deriving DecidableEq, Repr

/-- External command issued by `docker system prune -af`. -/
def dockerSystemPruneCmd : List String := ["docker", "system", "prune", "-af"]

/-- Step 1 of the minimal cleanup: containers stopped for more than 24h. -/
def dockerContainerPruneCmd : List String :=
  ["docker", "container", "prune", "-f", "--filter", "until=24h"]

/-- Step 2 of the minimal cleanup: dangling images. -/
def dockerImagePruneCmd : List String := ["docker", "image", "prune", "-f"]

/-- Step 3 of the minimal cleanup: unused networks. -/
def dockerNetworkPruneCmd : List String := ["docker", "network", "prune", "-f"]

/-- Step 4 of the minimal cleanup: build cache older than 7 days. -/
def dockerBuilderPruneCmd : List String :=
  ["docker", "builder", "prune", "-f", "--filter", "until=168h"]

/-- The `docker_clean_extensive` function: one `subprocess.run` with
`check=True`; `runOk` tells whether the external command exits zero.  The
result is the list of commands issued and whether the function completed
(false means `sys.exit(1)`). -/
def docker_clean_extensive (runOk : List String → Bool) : List (List String) × Bool :=
  if runOk dockerSystemPruneCmd then ([dockerSystemPruneCmd], true)
  else ([dockerSystemPruneCmd], false)

/-- The `docker_clean_minimal` function: four prune commands in sequence;
a failing command aborts the remaining steps (`CalledProcessError` caught
after the whole `try` block, then `sys.exit(1)`). -/
def docker_clean_minimal (runOk : List String → Bool) : List (List String) × Bool :=
  if ¬ runOk dockerContainerPruneCmd then ([dockerContainerPruneCmd], false)
  else if ¬ runOk dockerImagePruneCmd then
    ([dockerContainerPruneCmd, dockerImagePruneCmd], false)
  else if ¬ runOk dockerNetworkPruneCmd then
    ([dockerContainerPruneCmd, dockerImagePruneCmd, dockerNetworkPruneCmd], false)
  else if ¬ runOk dockerBuilderPruneCmd then
    ([dockerContainerPruneCmd, dockerImagePruneCmd, dockerNetworkPruneCmd,
      dockerBuilderPruneCmd], false)
  else
    ([dockerContainerPruneCmd, dockerImagePruneCmd, dockerNetworkPruneCmd,
      dockerBuilderPruneCmd], true)

/-- The `docker_clean_command` handler: `--extensive` takes precedence,
`--minimal` is explicit, and no flag defaults to the minimal cleanup. -/
def docker_clean_command (runOk : List String → Bool) (args : DockerArgs) :
    List (List String) × Bool :=
  if args.extensive then docker_clean_extensive runOk
  else if args.minimal then docker_clean_minimal runOk
  else docker_clean_minimal runOk

/-! ## Version comparison (`compare_versions`) -/

/-- Split of a character list at every dot, accumulating the current
segment in reverse. -/
def splitDotAux : List Char → List Char → List (List Char)
  | [], acc => [acc.reverse]
  | c :: rest, acc =>
      if c = '.' then acc.reverse :: splitDotAux rest []
      else splitDotAux rest (c :: acc)

/-- Decimal parse of a nonempty digit sequence. -/
def decimalNat? (cs : List Char) : Option Nat :=
  if cs.isEmpty then none
  else cs.foldl (fun acc c =>
    match acc with
    | none => none
    | some n => if c.isDigit then some (n * 10 + (c.toNat - 48)) else none) (some 0)

/-- Semantic-version parse of a tag of the form `v1.2.3` (or `1.2.3`). -/
def parseSemver (s : String) : Option (Nat × Nat × Nat) :=
  let cs :=
    match s.toList with
    | c :: rest => if c = 'v' then rest else c :: rest
    | [] => []
  match (splitDotAux cs []).map decimalNat? with
  | [some a, some b, some c] => some (a, b, c)
  | _ => none

/-- Modelled from the spec: the unit tests (`tests/unit/test_cli.py`)
refer to `compare_versions` of `maxcli.cli`, but the `cli.py` shipped in
the repository does not define it.  Following the spec (section 8) and
the behavior the tests pin down: semantic versions compare
componentwise (`compare_versions(current, latest)` is true when `latest`
is strictly newer); a non-semantic current version against a semantic
release is always older; otherwise plain string comparison decides. -/
def compare_versions (current latest : String) : Bool :=
  match parseSemver current, parseSemver latest with
  | some a, some b =>
      decide (a.1 < b.1 ∨ (a.1 = b.1 ∧ (a.2.1 < b.2.1 ∨ (a.2.1 = b.2.1 ∧ a.2.2 < b.2.2))))
  | none, some _ => true
  | _, _ => decide (current < latest)

/-! ## Characterization lemmas -/

theorem load_stored_clean (w : Bool) (now : String) (config : StoredConfig)
    (ems : List String) (mi : List (String × ModuleInfoEntry))
    (hE : config.enabled_modules = some ems)
    (hM : config.module_info = some mi)
    (hL : ∀ q ∈ config.legacy_flags, q.1 ∉ availableNames) :
    load_modules_config w now (ModFile.stored config) =
      { config := config, fs := ModFile.stored config, msgs := [] } := by
  obtain ⟨oem, omi, lf, ca, bv⟩ := config
  simp only at hE hM
  subst hE
  subst hM
  have hfilter : lf.filter (fun q => !decide (q.1 ∈ availableNames)) = lf :=
    List.filter_eq_self.2 (fun q hq => by simpa using hL q hq)
  have hany : (lf.any fun q => decide (q.1 ∈ availableNames)) = false := by
    rw [List.any_eq_false]
    intro q hq
    simpa using hL q hq
  simp [load_modules_config, hfilter, hany]

theorem validate_ok_iff (expand : String → String) (kind : String → PathKind)
    (user host : String) (port : Int) (key : String) :
    validate_ssh_target expand kind user host port key = none ↔
      (pyStrip user ≠ "" ∧ pyStrip host ≠ "" ∧ (1 ≤ port ∧ port ≤ 65535) ∧
        kind (expand key) = PathKind.regular) := by
  unfold validate_ssh_target
  split_ifs with h1 h2 h3 h4 h5 <;> simp_all

/-! ## Claim theorems -/

/-- C3 counterexample: `ssh_backup` is not in the static registry of
available modules, yet `disable_module("ssh_backup")` takes the legacy
consolidation branch and returns `True` (here on a configuration where it
is not enabled), not the claimed error and `False`. -/
theorem disable_legacy_returns_true :
    ("ssh_backup" ∉ availableNames) ∧
    (disable_module true "2024-01-01T00:00:00Z"
        (ModFile.stored ⟨some [], some [], [], none, none⟩) "ssh_backup").ok = true := by
  decide

/-- C3 (amended): for every module name that is neither in the static
registry nor one of the special-cased legacy names `ssh_backup` and
`ssh_rsync`, both `enable_module` and `disable_module` print the
module-not-available error and return `False`, leaving the persisted
configuration file untouched. -/
theorem unknown_module_rejected (w : Bool) (deps : String → Bool) (now : String)
    (f : ModFile) (name : String)
    (h1 : name ∉ availableNames) (h2 : name ≠ "ssh_backup") (h3 : name ≠ "ssh_rsync") :
    (enable_module w deps now f name).ok = false ∧
    (enable_module w deps now f name).fs = f ∧
    Msg.errModuleNotAvailable name ∈ (enable_module w deps now f name).msgs ∧
    (disable_module w now f name).ok = false ∧
    (disable_module w now f name).fs = f ∧
    Msg.errModuleNotAvailable name ∈ (disable_module w now f name).msgs := by
  have hleg : ¬ (name = "ssh_backup" ∨ name = "ssh_rsync") := by
    rintro (h | h)
    exacts [h2 h, h3 h]
  refine ⟨?_, ?_, ?_, ?_, ?_, ?_⟩ <;>
    simp [enable_module, disable_module, h1, hleg]

/-- C3 witness: the amended theorem applied at a concrete unknown name. -/
theorem unknown_module_rejected_witness :
    (enable_module true (fun _ => true) "2024-01-01T00:00:00Z" ModFile.absent
        "video_manager").ok = false ∧
    (enable_module true (fun _ => true) "2024-01-01T00:00:00Z" ModFile.absent
        "video_manager").fs = ModFile.absent ∧
    Msg.errModuleNotAvailable "video_manager" ∈
      (enable_module true (fun _ => true) "2024-01-01T00:00:00Z" ModFile.absent
        "video_manager").msgs ∧
    (disable_module true "2024-01-01T00:00:00Z" ModFile.absent "video_manager").ok = false ∧
    (disable_module true "2024-01-01T00:00:00Z" ModFile.absent "video_manager").fs
      = ModFile.absent ∧
    Msg.errModuleNotAvailable "video_manager" ∈
      (disable_module true "2024-01-01T00:00:00Z" ModFile.absent "video_manager").msgs :=
  unknown_module_rejected true (fun _ => true) "2024-01-01T00:00:00Z" ModFile.absent
    "video_manager" (by decide) (by decide) (by decide)

/-- C4: `load_modules_config` never raises: a missing file yields the
default configuration enabling exactly `DEFAULT_ENABLED_MODULES`, and an
unreadable or malformed file prints a warning and yields the same default
configuration.  (The embedding is a total function, so both outcomes are
produced without an exception, from a single read of the file state.) -/
theorem load_config_fail_soft (w : Bool) (now : String) :
    (load_modules_config w now ModFile.absent).config.enabled_modules
        = some DEFAULT_ENABLED_MODULES ∧
    (load_modules_config w now ModFile.malformed).config.enabled_modules
        = some DEFAULT_ENABLED_MODULES ∧
    (load_modules_config w now ModFile.malformed).config
        = (load_modules_config w now ModFile.absent).config ∧
    Msg.warnCouldNotLoad ∈ (load_modules_config w now ModFile.malformed).msgs := by
  refine ⟨rfl, rfl, rfl, ?_⟩
  simp [load_modules_config]

/-- C6: with neither flag set, `docker_clean_command` issues the four
minimal prune commands in order (containers until=24h, dangling images,
networks, builder until=168h); with `--extensive` it issues exactly the
single `docker system prune -af` command, whatever the `--minimal` flag. -/
theorem docker_clean_flag_dispatch (runOk : List String → Bool)
    (h : ∀ c, runOk c = true) :
    docker_clean_command runOk ⟨false, false⟩ =
      ([dockerContainerPruneCmd, dockerImagePruneCmd, dockerNetworkPruneCmd,
        dockerBuilderPruneCmd], true) ∧
    ∀ minimal, (docker_clean_command runOk ⟨true, minimal⟩).1 = [dockerSystemPruneCmd] := by
  constructor
  · simp [docker_clean_command, docker_clean_minimal, h]
  · intro m
    simp [docker_clean_command, docker_clean_extensive, h]

/-- C6 witness: the dispatch theorem at an oracle where every external
command succeeds. -/
theorem docker_clean_flag_dispatch_witness :
    docker_clean_command (fun _ => true) ⟨false, false⟩ =
      ([dockerContainerPruneCmd, dockerImagePruneCmd, dockerNetworkPruneCmd,
        dockerBuilderPruneCmd], true) ∧
    ∀ minimal, (docker_clean_command (fun _ => true) ⟨true, minimal⟩).1
      = [dockerSystemPruneCmd] :=
  docker_clean_flag_dispatch (fun _ => true) (fun c => rfl)

/-- C8: `compare_versions` reports `v1.0.1` as newer than `v1.0.0` and
not the other way around. -/
theorem compare_versions_basic :
    compare_versions "v1.0.0" "v1.0.1" = true ∧
    compare_versions "v1.0.1" "v1.0.0" = false := by
  decide

/-- C10: `load_ssh_targets` returns the empty dictionary on every failure
state of the targets file (absent, unreadable, invalid JSON), printing a
warning in the two error cases; being a total function, it never
propagates an exception. -/
theorem load_ssh_targets_fail_soft (tf : TargetsFile)
    (h : ∀ ts, tf ≠ TargetsFile.stored ts) :
    (load_ssh_targets tf).1 = [] ∧
      (tf ≠ TargetsFile.absent →
        Msg.warnCouldNotLoadTargets ∈ (load_ssh_targets tf).2) := by
  cases tf with
  | absent => exact ⟨rfl, fun h2 => absurd rfl h2⟩
  | unreadable => exact ⟨rfl, fun _ => List.mem_cons_self _ _⟩
  | invalidJson => exact ⟨rfl, fun _ => List.mem_cons_self _ _⟩
  | stored ts => exact absurd rfl (h ts)

/-- C10 witness: the fail-soft theorem at the invalid-JSON file state. -/
theorem load_ssh_targets_fail_soft_witness :
    (load_ssh_targets TargetsFile.invalidJson).1 = [] ∧
      (TargetsFile.invalidJson ≠ TargetsFile.absent →
        Msg.warnCouldNotLoadTargets ∈ (load_ssh_targets TargetsFile.invalidJson).2) :=
  load_ssh_targets_fail_soft TargetsFile.invalidJson
    (fun ts h => TargetsFile.noConfusion h)

/-- C1: saving a configuration that carries an `enabled_modules` list and
a `module_info` map and loading it back reproduces both exactly: the
enabled list is unchanged (JSON arrays keep their order) and the
`module_info` map holds exactly the original key-value pairs (the
round-trip only reorders object keys, which dictionary lookup does not
observe). -/
theorem save_load_roundtrip (w : Bool) (now : String) (f0 : ModFile) (config : StoredConfig)
    (ems : List String) (mi : List (String × ModuleInfoEntry))
    (hE : config.enabled_modules = some ems) (hM : config.module_info = some mi) :
    (load_modules_config w now (save_modules_config true f0 config).fs).config.enabled_modules
        = some ems ∧
    ∃ mi2,
      (load_modules_config w now (save_modules_config true f0 config).fs).config.module_info
          = some mi2 ∧
        ∀ name, lookupKey name mi2 = lookupKey name mi := by
  obtain ⟨oem, omi, lf, ca, bv⟩ := config
  simp only at hE hM
  subst hE
  subst hM
  cases hAny : (sortByKey lf).any (fun q => decide (q.1 ∈ availableNames)) with
  | false =>
      refine ⟨?_, sortByKey mi, ?_, fun name => lookupKey_sortByKey name mi⟩ <;>
        simp [load_modules_config, save_modules_config, canonicalize, hAny]
  | true =>
      refine ⟨?_, sortByKey mi, ?_, fun name => lookupKey_sortByKey name mi⟩ <;>
        simp [load_modules_config, save_modules_config, canonicalize, hAny]

/-- C1 witness: the round-trip theorem applied to the concrete default
configuration. -/
theorem save_load_roundtrip_witness :
    (load_modules_config true "2024-01-01T00:00:00Z" (save_modules_config true ModFile.absent
        (create_config_with_modules DEFAULT_ENABLED_MODULES
          "2024-01-01T00:00:00Z")).fs).config.enabled_modules
      = some DEFAULT_ENABLED_MODULES ∧
    ∃ mi2,
      (load_modules_config true "2024-01-01T00:00:00Z" (save_modules_config true ModFile.absent
          (create_config_with_modules DEFAULT_ENABLED_MODULES
            "2024-01-01T00:00:00Z")).fs).config.module_info
          = some mi2 ∧
        ∀ name, lookupKey name mi2 =
          lookupKey name ((create_config_with_modules DEFAULT_ENABLED_MODULES
            "2024-01-01T00:00:00Z").module_info.getD []) :=
  save_load_roundtrip true "2024-01-01T00:00:00Z" ModFile.absent
    (create_config_with_modules DEFAULT_ENABLED_MODULES "2024-01-01T00:00:00Z")
    DEFAULT_ENABLED_MODULES
    ((create_config_with_modules DEFAULT_ENABLED_MODULES
      "2024-01-01T00:00:00Z").module_info.getD []) rfl rfl

/-- C7 counterexample: with no configuration file on disk,
`disable_module("docker_manager")` — an available module that is not in
the (default) enabled list — returns `True` but rewrites the persisted
file with the synthesized default configuration, so the file does not
stay unmodified. -/
theorem disable_untouched_counterexample :
    ("docker_manager" ∈ availableNames) ∧
    ("docker_manager" ∉ DEFAULT_ENABLED_MODULES) ∧
    (disable_module true "2024-01-01T00:00:00Z" ModFile.absent "docker_manager").ok = true ∧
    (disable_module true "2024-01-01T00:00:00Z" ModFile.absent "docker_manager").fs
      ≠ ModFile.absent := by
  decide

/-- C7 (amended): disabling an available module that is not in
`enabled_modules` returns `True` and leaves the persisted file — hence
the enabled list — unmodified, provided the stored file already holds a
configuration with an `enabled_modules` list, a `module_info` map and no
legacy boolean flags under registry names (otherwise the load step itself
normalizes and rewrites the file before the no-op is detected). -/
theorem disable_already_disabled_frame (w : Bool) (now : String)
    (config : StoredConfig) (ems : List String) (mi : List (String × ModuleInfoEntry))
    (name : String)
    (hE : config.enabled_modules = some ems)
    (hM : config.module_info = some mi)
    (hL : ∀ q ∈ config.legacy_flags, q.1 ∉ availableNames)
    (hA : name ∈ availableNames)
    (hen : name ∉ ems) :
    (disable_module w now (ModFile.stored config) name).ok = true ∧
    (disable_module w now (ModFile.stored config) name).fs = ModFile.stored config ∧
    (disable_module w now (ModFile.stored config) name).msgs = [Msg.alreadyDisabled name] := by
  have hload := load_stored_clean w now config ems mi hE hM hL
  have hleg : ¬ (name = "ssh_backup" ∨ name = "ssh_rsync") := by
    rintro (h | h) <;> subst h <;> exact absurd hA (by decide)
  refine ⟨?_, ?_, ?_⟩ <;> simp [disable_module, hleg, hA, hload, hE, hen]

/-- C7 witness: the amended theorem applied at a stored empty modern
configuration and the available module docker_manager. -/
theorem disable_already_disabled_frame_witness :
    (disable_module true "2024-01-01T00:00:00Z"
        (ModFile.stored ⟨some [], some [], [], none, none⟩) "docker_manager").ok = true ∧
    (disable_module true "2024-01-01T00:00:00Z"
        (ModFile.stored ⟨some [], some [], [], none, none⟩) "docker_manager").fs
      = ModFile.stored ⟨some [], some [], [], none, none⟩ ∧
    (disable_module true "2024-01-01T00:00:00Z"
        (ModFile.stored ⟨some [], some [], [], none, none⟩) "docker_manager").msgs
      = [Msg.alreadyDisabled "docker_manager"] :=
  disable_already_disabled_frame true "2024-01-01T00:00:00Z"
    ⟨some [], some [], [], none, none⟩ [] [] "docker_manager" rfl rfl
    (by intro q hq; cases hq) (by decide) (by decide)

/-- C9 counterexample: two failures of the claim as stated.  First, a
stale name that sits in `enabled_modules` but is not in the registry
(`ssh_backup`) makes `enable_module` return `False`, not `True`.  Second,
for a registry module that is already enabled (`ssh_manager`),
`enable_module` still rewrites the configuration file when the stored
config carries a legacy boolean flag, because the load step cleans it up
and saves. -/
theorem enable_idempotent_counterexample :
    ("ssh_backup" ∈ ["ssh_backup"]) ∧
    (enable_module true (fun _ => true) "2024-01-01T00:00:00Z"
        (ModFile.stored ⟨some ["ssh_backup"], some [], [], none, none⟩) "ssh_backup").ok
      = false ∧
    ("ssh_manager" ∈ ["ssh_manager"]) ∧
    (enable_module true (fun _ => true) "2024-01-01T00:00:00Z"
        (ModFile.stored ⟨some ["ssh_manager"], some [], [("docker_manager", false)], none, none⟩)
        "ssh_manager").ok = true ∧
    (enable_module true (fun _ => true) "2024-01-01T00:00:00Z"
        (ModFile.stored ⟨some ["ssh_manager"], some [], [("docker_manager", false)], none, none⟩)
        "ssh_manager").fs
      ≠ ModFile.stored ⟨some ["ssh_manager"], some [], [("docker_manager", false)], none, none⟩ := by
  decide

/-- C9 (amended): `enable_module` is a no-op on an already-enabled
registry module, provided the name is available and the stored file holds
a configuration with an `enabled_modules` list, a `module_info` map and
no legacy boolean flags under registry names: it returns `True`, leaves
the persisted file unchanged, prints only the already-enabled notice, and
its whole result is independent of the dependency-installation
environment (no dependency is consulted or installed). -/
theorem enable_already_enabled_frame (w : Bool) (deps deps2 : String → Bool) (now : String)
    (config : StoredConfig) (ems : List String) (mi : List (String × ModuleInfoEntry))
    (name : String)
    (hE : config.enabled_modules = some ems)
    (hM : config.module_info = some mi)
    (hL : ∀ q ∈ config.legacy_flags, q.1 ∉ availableNames)
    (hA : name ∈ availableNames)
    (hen : name ∈ ems) :
    (enable_module w deps now (ModFile.stored config) name).ok = true ∧
    (enable_module w deps now (ModFile.stored config) name).fs = ModFile.stored config ∧
    (enable_module w deps now (ModFile.stored config) name).msgs
      = [Msg.alreadyEnabled name] ∧
    enable_module w deps now (ModFile.stored config) name
      = enable_module w deps2 now (ModFile.stored config) name := by
  have hload := load_stored_clean w now config ems mi hE hM hL
  refine ⟨?_, ?_, ?_, ?_⟩ <;> simp [enable_module, hA, hload, hE, hen]

/-- C9 witness: the amended theorem applied at a stored modern
configuration where ssh_manager is enabled, under two different
dependency environments. -/
theorem enable_already_enabled_frame_witness :
    (enable_module true (fun _ => true) "2024-01-01T00:00:00Z"
        (ModFile.stored ⟨some ["ssh_manager"], some [], [], none, none⟩) "ssh_manager").ok
      = true ∧
    (enable_module true (fun _ => true) "2024-01-01T00:00:00Z"
        (ModFile.stored ⟨some ["ssh_manager"], some [], [], none, none⟩) "ssh_manager").fs
      = ModFile.stored ⟨some ["ssh_manager"], some [], [], none, none⟩ ∧
    (enable_module true (fun _ => true) "2024-01-01T00:00:00Z"
        (ModFile.stored ⟨some ["ssh_manager"], some [], [], none, none⟩) "ssh_manager").msgs
      = [Msg.alreadyEnabled "ssh_manager"] ∧
    enable_module true (fun _ => true) "2024-01-01T00:00:00Z"
        (ModFile.stored ⟨some ["ssh_manager"], some [], [], none, none⟩) "ssh_manager"
      = enable_module true (fun _ => false) "2024-01-01T00:00:00Z"
        (ModFile.stored ⟨some ["ssh_manager"], some [], [], none, none⟩) "ssh_manager" :=
  enable_already_enabled_frame true (fun _ => true) (fun _ => false) "2024-01-01T00:00:00Z"
    ⟨some ["ssh_manager"], some [], [], none, none⟩ ["ssh_manager"] [] "ssh_manager"
    rfl rfl (by intro q hq; cases hq) (by decide) (by decide)

/-- C5: `add_target` prints an error and returns `False` leaving the
stored targets unchanged whenever the name is already taken, the port is
outside 1..65535, the user or host is empty after stripping, or the key
path is not an existing regular file; when every validation passes (and
the disk is writable) it returns `True` and stores the stripped profile
under `name`. -/
theorem add_target_validation (expand : String → String) (kind : String → PathKind)
    (w : Bool) (f : TargetsFile) (name user host : String) (port : Int) (key : String) :
    ((containsKey name (load_ssh_targets f).1 = true ∨ pyStrip user = "" ∨ pyStrip host = "" ∨
       ¬ (1 ≤ port ∧ port ≤ 65535) ∨ kind (expand key) ≠ PathKind.regular) →
      (add_target expand kind w f name user host port key).1 = false ∧
      (add_target expand kind w f name user host port key).2.1 = f ∧
      ((∃ e, Msg.errValidation e ∈ (add_target expand kind w f name user host port key).2.2) ∨
        Msg.errTargetExists name ∈ (add_target expand kind w f name user host port key).2.2)) ∧
    (containsKey name (load_ssh_targets f).1 = false → pyStrip user ≠ "" → pyStrip host ≠ "" →
      (1 ≤ port ∧ port ≤ 65535) → kind (expand key) = PathKind.regular → w = true →
      (add_target expand kind w f name user host port key).1 = true ∧
      ∃ ts2,
        (add_target expand kind w f name user host port key).2.1 = TargetsFile.stored ts2 ∧
          lookupKey name ts2 =
            some { user := pyStrip user, host := pyStrip host, port := port,
                   key := expand key }) := by
  cases hv : validate_ssh_target expand kind user host port key with
  | some e =>
      constructor
      · intro hbad
        refine ⟨?_, ?_, Or.inl ⟨e, ?_⟩⟩ <;> simp [add_target, hv]
      · intro hc hu hh hp hk hw
        rw [(validate_ok_iff expand kind user host port key).2 ⟨hu, hh, hp, hk⟩] at hv
        cases hv
  | none =>
      obtain ⟨hu, hh, hp, hk⟩ := (validate_ok_iff expand kind user host port key).1 hv
      cases hlk : lookupKey name (load_ssh_targets f).1 with
      | some v =>
          have hcont : containsKey name (load_ssh_targets f).1 = true := by
            simp [containsKey, hlk]
          constructor
          · intro hbad
            refine ⟨?_, ?_, Or.inr ?_⟩ <;> simp [add_target, hv, hcont]
          · intro hc
            rw [hcont] at hc
            cases hc
      | none =>
          have hcont : containsKey name (load_ssh_targets f).1 = false := by
            simp [containsKey, hlk]
          constructor
          · intro hbad
            rcases hbad with hbad | hbad | hbad | hbad | hbad
            · rw [hcont] at hbad
              cases hbad
            · exact absurd hbad hu
            · exact absurd hbad hh
            · exact absurd hp hbad
            · exact absurd hk hbad
          · intro hc hu2 hh2 hp2 hk2 hw
            subst hw
            refine ⟨?_, (load_ssh_targets f).1 ++
              [(name, { user := pyStrip user, host := pyStrip host, port := port,
                        key := expand key })], ?_, ?_⟩
            · simp [add_target, hv, hcont, save_ssh_targets]
            · simp [add_target, hv, hcont, save_ssh_targets]
            · rw [lookupKey_append, hlk]
              simp [lookupKey]

/-- C5 witness: the validation theorem applied at a concrete failing
input (port 0) and a concrete passing input. -/
theorem add_target_validation_witness :
    ((add_target id (fun _ => PathKind.regular) true TargetsFile.absent
        "web" "root" "example.com" 0 "~/.ssh/id_rsa").1 = false ∧
      (add_target id (fun _ => PathKind.regular) true TargetsFile.absent
        "web" "root" "example.com" 0 "~/.ssh/id_rsa").2.1 = TargetsFile.absent ∧
      ((∃ e, Msg.errValidation e ∈ (add_target id (fun _ => PathKind.regular) true
          TargetsFile.absent "web" "root" "example.com" 0 "~/.ssh/id_rsa").2.2) ∨
        Msg.errTargetExists "web" ∈ (add_target id (fun _ => PathKind.regular) true
          TargetsFile.absent "web" "root" "example.com" 0 "~/.ssh/id_rsa").2.2)) ∧
    ((add_target id (fun _ => PathKind.regular) true TargetsFile.absent
        "web" "root" "example.com" 22 "~/.ssh/id_rsa").1 = true ∧
      ∃ ts2,
        (add_target id (fun _ => PathKind.regular) true TargetsFile.absent
          "web" "root" "example.com" 22 "~/.ssh/id_rsa").2.1 = TargetsFile.stored ts2 ∧
          lookupKey "web" ts2 =
            some { user := pyStrip "root", host := pyStrip "example.com", port := 22,
                   key := id "~/.ssh/id_rsa" }) :=
  ⟨(add_target_validation id (fun _ => PathKind.regular) true TargetsFile.absent
      "web" "root" "example.com" 0 "~/.ssh/id_rsa").1
      (Or.inr (Or.inr (Or.inr (Or.inl (by decide))))),
   (add_target_validation id (fun _ => PathKind.regular) true TargetsFile.absent
      "web" "root" "example.com" 22 "~/.ssh/id_rsa").2
      (by decide) (by decide) (by decide) (by decide) (by decide) rfl⟩

/-- C2 counterexample: the stated invariant is not preserved by
`disable_module` when the (hand-editable) `enabled_modules` list carries
a duplicate: the configuration below satisfies the invariant, yet
disabling `gcp_manager` removes only the first of its two list entries
while clearing the `enabled` flag, and the configuration written back
violates the invariant. -/
theorem disable_duplicate_breaks_invariant :
    invariantHolds ⟨some ["gcp_manager", "gcp_manager"],
        some [("gcp_manager", ⟨true, "", [], []⟩)], [], none, none⟩ = true ∧
    (disable_module true "2024-01-01T00:00:00Z"
        (ModFile.stored ⟨some ["gcp_manager", "gcp_manager"],
          some [("gcp_manager", ⟨true, "", [], []⟩)], [], none, none⟩) "gcp_manager").fs =
      ModFile.stored ⟨some ["gcp_manager"],
        some [("gcp_manager", ⟨false, "", [], []⟩)], [], none, none⟩ ∧
    invariantHolds ⟨some ["gcp_manager"],
        some [("gcp_manager", ⟨false, "", [], []⟩)], [], none, none⟩ = false := by
  decide

/-- C2 (amended): every operation producing or mutating the module
configuration keeps the enabled-flag mirror invariant: default-config
creation establishes it outright, the `module_info` reconstruction
(`update_module_info_if_needed`) preserves it, `enable_module` preserves
it on any file state, and `disable_module` preserves it provided the
module being disabled occurs at most once in the loaded enabled list (as
in every configuration the code itself writes; a hand-made duplicate
defeats the single `list.remove`). -/
theorem modules_invariant_preservation :
    (∀ w now f, invariantHolds (create_default_config w now f).config = true ∧
      (FileInv f → FileInv (create_default_config w now f).fs)) ∧
    (∀ config, invariantHolds config = true →
      invariantHolds (update_module_info_if_needed config).1 = true) ∧
    (∀ w deps now f name, FileInv f → FileInv (enable_module w deps now f name).fs) ∧
    (∀ w now f name, FileInv f →
      List.count name ((load_modules_config w now f).config.enabled_modules.getD []) ≤ 1 →
      FileInv (disable_module w now f name).fs) := by
  refine ⟨?_, inv_update, fileInv_enable, fileInv_disable⟩
  intro w now f
  exact ⟨inv_create _ _, fun hf => fileInv_save w f _ hf (inv_create _ _)⟩

/-- C2 witness: the preservation theorem applied at concrete states — a
concrete configuration for the reconstruction part and the absent file
state for the enable/disable parts. -/
theorem modules_invariant_preservation_witness :
    invariantHolds (create_default_config true "2024-01-01T00:00:00Z" ModFile.absent).config
      = true ∧
    invariantHolds (update_module_info_if_needed
      ⟨some ["ssh_manager"], some [], [], none, none⟩).1 = true ∧
    FileInv (enable_module true (fun _ => true) "2024-01-01T00:00:00Z" ModFile.absent
      "docker_manager").fs ∧
    FileInv (disable_module true "2024-01-01T00:00:00Z" ModFile.absent "git_manager").fs :=
  ⟨(modules_invariant_preservation.1 true "2024-01-01T00:00:00Z" ModFile.absent).1,
   modules_invariant_preservation.2.1 ⟨some ["ssh_manager"], some [], [], none, none⟩
     (by decide),
   modules_invariant_preservation.2.2.1 true (fun _ => true) "2024-01-01T00:00:00Z"
     ModFile.absent "docker_manager" (fun c h => ModFile.noConfusion h),
   modules_invariant_preservation.2.2.2 true "2024-01-01T00:00:00Z" ModFile.absent
     "git_manager" (fun c h => ModFile.noConfusion h) (by decide)⟩

end MaxCLI
